import Mathlib

/-
Verification development for the LS-8 emulator in src/ls8/cpu.py.

Modelling choices, all taken from the source:
- Python integers are unbounded, so machine values are modelled by Int.
  The source never masks arithmetic results to 8 bits.
- The true-division statement in the DIV branch produces a Python float.
  Values are therefore modelled by PyNum, either an int or a float; a
  float is represented by the exact rational value of the division
  (double rounding is not modelled, and no theorem below depends on the
  numeric value of a float).
- Python list indexing accepts negative indices, counting from the end,
  and raises IndexError outside the range from minus the length to the
  length; a float index raises TypeError. pyIdx models this.
- sys.exit calls and uncaught Python exceptions both abort the run; they
  are modelled as values of PyErr in an Except result. The DIV and MOD
  branches print a message, set running to 0 and call sys.exit, which is
  the divByZeroExit error here; dividing by an actual zero value raises
  an uncaught ZeroDivisionError.
- The text printed by PRN and by the error branches is outside the
  machine state and is not modelled; PRN still performs its register
  read, which can fail.
- The loader, argument handling and the trace helper are outside the
  modelled core.
-/

namespace LS8

/-- Python runtime error or process exit, as produced by the source. -/
inductive PyErr where
  | indexError
  | typeError
  | valueError
  | zeroDivisionError
  | divByZeroExit
  | unsupportedALU
deriving DecidableEq

/-- Python numeric value: an int, or a float modelled as an exact rational. -/
inductive PyNum where
  | int : Int → PyNum
  | flt : Rat → PyNum
deriving DecidableEq

/-- Numeric value of a PyNum, for the mixed-type comparisons Python performs. -/
def PyNum.toRat : PyNum → Rat
  | .int n => (n : Rat)
  | .flt q => q

/-- Python equality test on numbers: ints compare as ints, otherwise numerically. -/
def pyEq : PyNum → PyNum → Bool
  | .int m, .int n => m == n
  | a, b => a.toRat == b.toRat

/-- Python less-than test on numbers. -/
def pyLt : PyNum → PyNum → Bool
  | .int m, .int n => m < n
  | a, b => a.toRat < b.toRat

/-- Python addition: int plus int is an int, any float makes a float. -/
def pyAdd : PyNum → PyNum → PyNum
  | .int m, .int n => .int (m + n)
  | a, b => .flt (a.toRat + b.toRat)

/-- Python subtraction. -/
def pySub : PyNum → PyNum → PyNum
  | .int m, .int n => .int (m - n)
  | a, b => .flt (a.toRat - b.toRat)

/-- Python multiplication. -/
def pyMul : PyNum → PyNum → PyNum
  | .int m, .int n => .int (m * n)
  | a, b => .flt (a.toRat * b.toRat)

/-- Python true division, the slash operator: the result is always a float,
also for two int arguments. The caller excludes a zero divisor. -/
def pyDiv (a b : PyNum) : PyNum :=
  .flt (a.toRat / b.toRat)

/-- Python floor-remainder, the percent operator: for ints the remainder has
the sign of the divisor, which is Int.fmod. The caller excludes a zero divisor. -/
def pyFloorMod : PyNum → PyNum → PyNum
  | .int m, .int n => .int (m.fmod n)
  | a, b => .flt (a.toRat - b.toRat * ((a.toRat / b.toRat).floor : Rat))

/-- Integer content of a PyNum; a float raises TypeError where Python
requires an int, as in indexing and shifts. -/
def PyNum.asInt : PyNum → Except PyErr Int
  | .int n => .ok n
  | .flt _ => .error .typeError

/-- Python bitwise and on ints; a float operand raises TypeError. -/
def pyAnd (a b : PyNum) : Except PyErr PyNum :=
  match a.asInt with
  | .error e => .error e
  | .ok m =>
    match b.asInt with
    | .error e => .error e
    | .ok n => .ok (.int (m.land n))

/-- Python bitwise or on ints. -/
def pyOr (a b : PyNum) : Except PyErr PyNum :=
  match a.asInt with
  | .error e => .error e
  | .ok m =>
    match b.asInt with
    | .error e => .error e
    | .ok n => .ok (.int (m.lor n))

/-- Python bitwise xor on ints. -/
def pyXor (a b : PyNum) : Except PyErr PyNum :=
  match a.asInt with
  | .error e => .error e
  | .ok m =>
    match b.asInt with
    | .error e => .error e
    | .ok n => .ok (.int (m.xor n))

/-- Python left shift on ints; a negative shift count raises ValueError. -/
def pyShl (a b : PyNum) : Except PyErr PyNum :=
  match a.asInt with
  | .error e => .error e
  | .ok m =>
    match b.asInt with
    | .error e => .error e
    | .ok n => if n < 0 then .error .valueError else .ok (.int (m * 2 ^ n.toNat))

/-- Python right shift on ints, a floor shift; negative count raises ValueError. -/
def pyShr (a b : PyNum) : Except PyErr PyNum :=
  match a.asInt with
  | .error e => .error e
  | .ok m =>
    match b.asInt with
    | .error e => .error e
    | .ok n => if n < 0 then .error .valueError else .ok (.int (m.shiftRight n.toNat))

/-- Python list index resolution for a list of the given length: an in-range
nonnegative index is used directly, a negative index not below minus the
length counts from the end, anything else raises IndexError; a float index
raises TypeError. -/
def pyIdx (len : Nat) (v : PyNum) : Except PyErr Nat :=
  match v.asInt with
  | .error e => .error e
  | .ok n =>
    if 0 ≤ n ∧ n < (len : Int) then .ok n.toNat
    else if -(len : Int) ≤ n ∧ n < 0 then .ok (n + (len : Int)).toNat
    else .error .indexError

/-- Opcode ADD from the source constant table. -/
def ADD : Int := 0b10100000

/-- Opcode AND. -/
def AND : Int := 0b10101000

/-- Opcode CALL. -/
def CALL : Int := 0b01010000

/-- Opcode CMP. -/
def CMP : Int := 0b10100111

/-- Opcode DEC. -/
def DEC : Int := 0b01100110

/-- Opcode DIV. -/
def DIV : Int := 0b10100011

/-- Opcode HLT. -/
def HLT : Int := 0b00000001

/-- Opcode INC. -/
def INC : Int := 0b01100101

/-- Opcode IRET. -/
def IRET : Int := 0b00010011

/-- Opcode JEQ. -/
def JEQ : Int := 0b01010101

/-- Opcode JLE. -/
def JLE : Int := 0b01011001

/-- Opcode JLT. -/
def JLT : Int := 0b01011000

/-- Opcode JMP. -/
def JMP : Int := 0b01010100

/-- Opcode JNE. -/
def JNE : Int := 0b01010110

/-- Opcode LD. -/
def LD : Int := 0b10000011

/-- Opcode LDI. -/
def LDI : Int := 0b10000010

/-- Opcode MOD. -/
def MOD : Int := 0b10100100

/-- Opcode MUL. -/
def MUL : Int := 0b10100010

/-- Opcode NOT. -/
def NOT : Int := 0b01101001

/-- Opcode OR. -/
def OR : Int := 0b10101010

/-- Opcode POP. -/
def POP : Int := 0b01000110

/-- Opcode PRA. -/
def PRA : Int := 0b01001000

/-- Opcode PRN. -/
def PRN : Int := 0b01000111

/-- Opcode PUSH. -/
def PUSH : Int := 0b01000101

/-- Opcode RET. -/
def RET : Int := 0b00010001

/-- Opcode SHL. -/
def SHL : Int := 0b10101100

/-- Opcode SHR. -/
def SHR : Int := 0b10101101

/-- Opcode ST. -/
def ST : Int := 0b10000100

/-- Opcode SUB. -/
def SUB : Int := 0b10100001

/-- Opcode XOR. -/
def XOR : Int := 0b10101011

/-- Machine state of the CPU class: ram, the register list, the dedicated
stack pointer field, the program counter, the flags byte and the running
flag. The stack pointer only ever holds ints in the source, and the flags
byte only the constants 0, 1, 2 and 4, so those two fields are Int. The
program counter can receive a register value through JMP, CALL or RET, so
it is a PyNum. -/
structure CPU where
  ram : List PyNum
  reg : List PyNum
  sp : Int
  pc : PyNum
  fl : Int
  running : Bool
deriving DecidableEq

/-- State built by the CPU constructor: 256 zeroed ram cells, 8 zeroed
registers, stack pointer 244 also copied into register 7, program counter 0,
flags 0, running true. -/
def initCPU : CPU where
  ram := List.replicate 256 (.int 0)
  reg := (List.replicate 8 (.int 0)).set 7 (.int 244)
  sp := 244
  pc := .int 0
  fl := 0
  running := true

/-- Method ram_read: plain list indexing of ram, with Python index semantics. -/
def CPU.ram_read (s : CPU) (mar : PyNum) : Except PyErr PyNum :=
  match pyIdx s.ram.length mar with
  | .error e => .error e
  | .ok i => .ok (s.ram.getD i (.int 0))

/-- Method ram_write: plain list element assignment into ram. -/
def CPU.ram_write (s : CPU) (mdr mar : PyNum) : Except PyErr CPU :=
  match pyIdx s.ram.length mar with
  | .error e => .error e
  | .ok i => .ok { s with ram := s.ram.set i mdr }

/-- Register read, the expression self.reg applied to an operand index. -/
def CPU.regGet (s : CPU) (r : PyNum) : Except PyErr PyNum :=
  match pyIdx s.reg.length r with
  | .error e => .error e
  | .ok i => .ok (s.reg.getD i (.int 0))

/-- Register write, assignment into self.reg at an operand index. -/
def CPU.regSet (s : CPU) (r v : PyNum) : Except PyErr CPU :=
  match pyIdx s.reg.length r with
  | .error e => .error e
  | .ok i => .ok { s with reg := s.reg.set i v }

/-- Augmented assignment of a total binary operator to a register, the shape
of the ADD, SUB and MUL branches of alu: read the destination register, read
the source register, store the combination into the destination. -/
def CPU.binAssign (s : CPU) (reg_a reg_b : PyNum) (f : PyNum → PyNum → PyNum) :
    Except PyErr CPU :=
  match s.regGet reg_a with
  | .error e => .error e
  | .ok a =>
    match s.regGet reg_b with
    | .error e => .error e
    | .ok b => s.regSet reg_a (f a b)

/-- Augmented assignment of a fallible binary operator, the shape of the
bitwise and shift branches of alu. -/
def CPU.binAssignE (s : CPU) (reg_a reg_b : PyNum)
    (f : PyNum → PyNum → Except PyErr PyNum) : Except PyErr CPU :=
  match s.regGet reg_a with
  | .error e => .error e
  | .ok a =>
    match s.regGet reg_b with
    | .error e => .error e
    | .ok b =>
      match f a b with
      | .error e => .error e
      | .ok v => s.regSet reg_a v

/-- Augmented assignment of a unary operator, the shape of the INC and DEC
branches of alu. -/
def CPU.unAssign (s : CPU) (reg_a : PyNum) (f : PyNum → PyNum) :
    Except PyErr CPU :=
  match s.regGet reg_a with
  | .error e => .error e
  | .ok a => s.regSet reg_a (f a)

/-- Method alu, the if-elif chain over the opcode in source order. Notable
source behaviours kept as written: the DIV and MOD branches test the operand
reg_b itself against 0, not the register value it names, before printing and
exiting; the DIV branch uses true division, producing a float; the NOT
branch evaluates the comparison of the two register values with the
not-equal operator and discards the result, mutating nothing. -/
def CPU.alu (s : CPU) (op reg_a reg_b : PyNum) : Except PyErr CPU :=
  if pyEq op (.int ADD) then s.binAssign reg_a reg_b pyAdd
  else if pyEq op (.int AND) then s.binAssignE reg_a reg_b pyAnd
  else if pyEq op (.int CMP) then
    match s.regGet reg_a with
    | .error e => .error e
    | .ok a =>
      match s.regGet reg_b with
      | .error e => .error e
      | .ok b =>
        if pyEq a b then .ok { s with fl := 0b00000001 }
        else if pyLt a b then .ok { s with fl := 0b00000100 }
        else .ok { s with fl := 0b00000010 }
  else if pyEq op (.int DEC) then s.unAssign reg_a (fun a => pySub a (.int 1))
  else if pyEq op (.int DIV) then
    if pyEq reg_b (.int 0) then .error .divByZeroExit
    else
      match s.regGet reg_a with
      | .error e => .error e
      | .ok a =>
        match s.regGet reg_b with
        | .error e => .error e
        | .ok b =>
          if pyEq b (.int 0) then .error .zeroDivisionError
          else s.regSet reg_a (pyDiv a b)
  else if pyEq op (.int INC) then s.unAssign reg_a (fun a => pyAdd a (.int 1))
  else if pyEq op (.int MOD) then
    if pyEq reg_b (.int 0) then .error .divByZeroExit
    else
      match s.regGet reg_a with
      | .error e => .error e
      | .ok a =>
        match s.regGet reg_b with
        | .error e => .error e
        | .ok b =>
          if pyEq b (.int 0) then .error .zeroDivisionError
          else s.regSet reg_a (pyFloorMod a b)
  else if pyEq op (.int MUL) then s.binAssign reg_a reg_b pyMul
  else if pyEq op (.int NOT) then
    match s.regGet reg_a with
    | .error e => .error e
    | .ok _ =>
      match s.regGet reg_b with
      | .error e => .error e
      | .ok _ => .ok s
  else if pyEq op (.int OR) then s.binAssignE reg_a reg_b pyOr
  else if pyEq op (.int SHL) then s.binAssignE reg_a reg_b pyShl
  else if pyEq op (.int SHR) then s.binAssignE reg_a reg_b pyShr
  else if pyEq op (.int SUB) then s.binAssign reg_a reg_b pySub
  else if pyEq op (.int XOR) then s.binAssignE reg_a reg_b pyXor
  else .error .unsupportedALU

/-- Handler op_hlt: clear the running flag. -/
def CPU.op_hlt (s : CPU) (operand_a operand_b : PyNum) : Except PyErr CPU :=
  .ok { s with running := false }

/-- Handler op_jmp: set the program counter to the named register value. -/
def CPU.op_jmp (s : CPU) (operand_a operand_b : PyNum) : Except PyErr CPU :=
  match s.regGet operand_a with
  | .error e => .error e
  | .ok v => .ok { s with pc := v }

/-- Handler op_jeq: jump when the equal flag bit is set, otherwise advance
the program counter by 2. -/
def CPU.op_jeq (s : CPU) (operand_a operand_b : PyNum) : Except PyErr CPU :=
  if s.fl.land 0b00000001 = 1 then s.op_jmp operand_a operand_b
  else .ok { s with pc := pyAdd s.pc (.int 2) }

/-- Handler op_jne: jump when the equal flag bit is clear, otherwise advance
the program counter by 2. -/
def CPU.op_jne (s : CPU) (operand_a operand_b : PyNum) : Except PyErr CPU :=
  if s.fl.land 0b00000001 = 0 then s.op_jmp operand_a operand_b
  else .ok { s with pc := pyAdd s.pc (.int 2) }

/-- Handler op_ldi: store the second operand byte into the named register. -/
def CPU.op_ldi (s : CPU) (operand_a operand_b : PyNum) : Except PyErr CPU :=
  s.regSet operand_a operand_b

/-- Handler op_call: decrement the stack pointer, write the return address,
the program counter plus 2, at the stack pointer, then set the program
counter to the named register value. -/
def CPU.op_call (s : CPU) (operand_a operand_b : PyNum) : Except PyErr CPU :=
  let s1 := { s with sp := s.sp - 1 }
  match s1.ram_write (pyAdd s1.pc (.int 2)) (.int s1.sp) with
  | .error e => .error e
  | .ok s2 =>
    match s2.regGet operand_a with
    | .error e => .error e
    | .ok v => .ok { s2 with pc := v }

/-- Handler op_pop: read ram at the stack pointer into the named register,
then increment the stack pointer. -/
def CPU.op_pop (s : CPU) (operand_a operand_b : PyNum) : Except PyErr CPU :=
  match s.ram_read (.int s.sp) with
  | .error e => .error e
  | .ok v =>
    match s.regSet operand_a v with
    | .error e => .error e
    | .ok s1 => .ok { s1 with sp := s1.sp + 1 }

/-- Handler op_prn: read the named register and print it; the printed text is
outside the machine state, so the state is returned unchanged. -/
def CPU.op_prn (s : CPU) (operand_a operand_b : PyNum) : Except PyErr CPU :=
  match s.regGet operand_a with
  | .error e => .error e
  | .ok _ => .ok s

/-- Handler op_push: decrement the stack pointer, then write the named
register value to ram at the stack pointer. -/
def CPU.op_push (s : CPU) (operand_a operand_b : PyNum) : Except PyErr CPU :=
  let s1 := { s with sp := s.sp - 1 }
  match s1.regGet operand_a with
  | .error e => .error e
  | .ok v => s1.ram_write v (.int s1.sp)

/-- Handler op_ret: read ram at the stack pointer into the program counter,
then increment the stack pointer. -/
def CPU.op_ret (s : CPU) (operand_a operand_b : PyNum) : Except PyErr CPU :=
  match s.ram_read (.int s.sp) with
  | .error e => .error e
  | .ok v => .ok { s with pc := v, sp := s.sp + 1 }

/-- Dispatch through the branch table bt built in the constructor: the keys
present are CALL, HLT, JEQ, JMP, JNE, LDI, POP, PRN, PUSH and RET; the
entries for IRET, JLE, JLT, LD, PRA and ST are commented out in the source.
An opcode with no entry is a no-op, matching the membership test in run.
Dictionary lookup in Python compares keys numerically, which pyEq models. -/
def CPU.dispatch (s : CPU) (ir operand_a operand_b : PyNum) : Except PyErr CPU :=
  if pyEq ir (.int CALL) then s.op_call operand_a operand_b
  else if pyEq ir (.int HLT) then s.op_hlt operand_a operand_b
  else if pyEq ir (.int JEQ) then s.op_jeq operand_a operand_b
  else if pyEq ir (.int JMP) then s.op_jmp operand_a operand_b
  else if pyEq ir (.int JNE) then s.op_jne operand_a operand_b
  else if pyEq ir (.int LDI) then s.op_ldi operand_a operand_b
  else if pyEq ir (.int POP) then s.op_pop operand_a operand_b
  else if pyEq ir (.int PRN) then s.op_prn operand_a operand_b
  else if pyEq ir (.int PUSH) then s.op_push operand_a operand_b
  else if pyEq ir (.int RET) then s.op_ret operand_a operand_b
  else .ok s

/-- One iteration of the run loop: fetch the instruction byte and the two
operand bytes, decode the ALU bit as bit 5 of the instruction, route to alu
or to the branch table, decode the sets-PC bit as bit 4, and advance the
program counter by the operand count, bits 7 and 6, plus 1 when the sets-PC
bit is clear. The source binds the decoded values to the locals isALU,
setsPC and num_operands; they are inlined here. The shift on the
instruction register requires an int, as in Python. -/
def CPU.step (s : CPU) : Except PyErr CPU :=
  match s.ram_read s.pc with
  | .error e => .error e
  | .ok ir =>
    match s.ram_read (pyAdd s.pc (.int 1)) with
    | .error e => .error e
    | .ok operand_a =>
      match s.ram_read (pyAdd s.pc (.int 2)) with
      | .error e => .error e
      | .ok operand_b =>
        match ir.asInt with
        | .error e => .error e
        | .ok irI =>
          match
            (if (irI.shiftRight 5).land 0b00000001 = 1 then s.alu ir operand_a operand_b
             else s.dispatch ir operand_a operand_b) with
          | .error e => .error e
          | .ok s1 =>
            if (irI.shiftRight 4).land 0b00000001 = 0 then
              .ok { s1 with pc := pyAdd s1.pc (.int (irI.shiftRight 6 + 1)) }
            else .ok s1

/-- Stack or subroutine instruction, for stating invariants over sequences
of the four stack-manipulating handlers. -/
inductive StackOp where
  | push : PyNum → PyNum → StackOp
  | pop : PyNum → PyNum → StackOp
  | call : PyNum → PyNum → StackOp
  | ret : PyNum → PyNum → StackOp
deriving DecidableEq

/-- Execute one stack or subroutine handler. -/
def execStackOp (op : StackOp) (s : CPU) : Except PyErr CPU :=
  match op with
  | .push a b => s.op_push a b
  | .pop a b => s.op_pop a b
  | .call a b => s.op_call a b
  | .ret a b => s.op_ret a b

/-- Execute a sequence of stack and subroutine handlers, stopping at the
first error. -/
def runStackOps : List StackOp → CPU → Except PyErr CPU
  | [], s => .ok s
  | o :: rest, s =>
    match execStackOp o s with
    | .error e => .error e
    | .ok s1 => runStackOps rest s1

/-- A stack operation whose register write cannot land on register 7 of an
8-register file: every push, call and ret, and a pop whose operand does not
resolve to index 7. -/
def StackOp.avoidsR7 : StackOp → Bool
  | .pop a _ =>
    match pyIdx 8 a with
    | .ok 7 => false
    | _ => true
  | _ => true

/-- List of the opcode values present as keys of the branch table. -/
def btKeys : List Int := [CALL, HLT, JEQ, JMP, JNE, LDI, POP, PRN, PUSH, RET]

/-- Example state for the ALU claims: register 0 holds 5, register 1 holds
10, register 2 holds 0, register 3 holds 4. -/
def aluEx : CPU where
  ram := List.replicate 8 (.int 0)
  reg := [.int 5, .int 10, .int 0, .int 4, .int 0, .int 0, .int 0, .int 244]
  sp := 244
  pc := .int 0
  fl := 0
  running := true

/-- Example state for the overflow claim: register 0 holds 200, register 1
holds 100. -/
def addEx : CPU where
  ram := List.replicate 8 (.int 0)
  reg := [.int 200, .int 100, .int 0, .int 0, .int 0, .int 0, .int 0, .int 244]
  sp := 244
  pc := .int 0
  fl := 0
  running := true

/-- Example state whose ram holds the LDI instruction storing 42 into
register 1. -/
def ldiEx : CPU where
  ram := [.int 130, .int 1, .int 42, .int 0]
  reg := List.replicate 8 (.int 0)
  sp := 244
  pc := .int 0
  fl := 0
  running := true

/-- Example state whose ram holds the JLT opcode, value 88, which is
non-ALU, absent from the branch table, and carries the sets-PC bit. -/
def spinEx : CPU where
  ram := [.int 88, .int 0, .int 0, .int 0]
  reg := List.replicate 8 (.int 0)
  sp := 244
  pc := .int 0
  fl := 0
  running := true

/-- Example state whose ram holds the LD opcode, value 131, which is
non-ALU, absent from the branch table, and has the sets-PC bit clear. -/
def ldEx : CPU where
  ram := [.int 131, .int 0, .int 0, .int 0]
  reg := List.replicate 8 (.int 0)
  sp := 244
  pc := .int 0
  fl := 0
  running := true

/-- Example state with full-size ram for the stack claims. -/
def stackEx : CPU where
  ram := List.replicate 256 (.int 0)
  reg := [.int 5, .int 10, .int 0, .int 4, .int 0, .int 0, .int 0, .int 244]
  sp := 244
  pc := .int 0
  fl := 0
  running := true

/-- Stack operation list for the register-7 invariant witness. -/
def demoOps : List StackOp := [.push (.int 0) (.int 0)]

/-- State reached by running demoOps from the constructed state. -/
def demoRes : CPU := { initCPU with sp := 243, ram := initCPU.ram.set 243 (.int 0) }

/-- State reached by one step of the LDI example. -/
def ldiRes : CPU := { ldiEx with reg := ldiEx.reg.set 1 (.int 42), pc := .int 3 }

/-- State reached by one step of the LD example: a silent no-op advance. -/
def ldRes : CPU := { ldEx with pc := .int 3 }

/-- State reached by pushing register 1 from the stack example. -/
def stackPushRes : CPU :=
  { stackEx with sp := 243, ram := stackEx.ram.set 243 (.int 10) }

/-- State reached by then popping back into register 1. -/
def stackPopRes : CPU :=
  { stackPushRes with reg := stackPushRes.reg.set 1 (.int 10), sp := 244 }

/-- State reached by a CALL through register 1 from the stack example. -/
def callRes : CPU :=
  { stackEx with sp := 243, ram := stackEx.ram.set 243 (.int 2), pc := .int 10 }

/-- State reached by a RET from the post-CALL state. -/
def retRes : CPU := { callRes with pc := .int 2, sp := 244 }

instance {ε α : Type} [DecidableEq ε] [DecidableEq α] : DecidableEq (Except ε α) := fun a b =>
  match a, b with
  | .error e, .error f =>
    if h : e = f then isTrue (by rw [h]) else isFalse (by simp [h])
  | .ok x, .ok y =>
    if h : x = y then isTrue (by rw [h]) else isFalse (by simp [h])
  | .error _, .ok _ => isFalse (by simp)
  | .ok _, .error _ => isFalse (by simp)

set_option maxRecDepth 8000
set_option maxHeartbeats 1600000

theorem getD_set_self {l : List PyNum} {i : Nat} {v d : PyNum} (h : i < l.length) :
    (l.set i v).getD i d = v := by
  rw [List.getD_eq_getElem?_getD, List.getElem?_set_self h]
  rfl

theorem getD_set_ne {l : List PyNum} {i j : Nat} {v d : PyNum} (h : i ≠ j) :
    (l.set i v).getD j d = l.getD j d := by
  rw [List.getD_eq_getElem?_getD, List.getElem?_set_ne h, List.getD_eq_getElem?_getD]

theorem set_getD_self {l : List PyNum} {i : Nat} {d : PyNum} (h : i < l.length) :
    l.set i (l.getD i d) = l := by
  apply List.ext_getElem?
  intro j
  rcases eq_or_ne i j with rfl | hne
  · rw [List.getElem?_set_self h, List.getD_eq_getElem l d h, List.getElem?_eq_getElem h]
  · rw [List.getElem?_set_ne hne]

theorem pyIdx_ok_lt {len : Nat} {v : PyNum} {i : Nat} (h : pyIdx len v = .ok i) :
    i < len := by
  unfold pyIdx at h
  split at h
  case _ => exact absurd h (by simp)
  case _ n hn =>
    split at h
    case isTrue hb => cases h; omega
    case isFalse hb =>
      split at h
      case isTrue hb2 => cases h; omega
      case isFalse => exact absurd h (by simp)

theorem pyIdx_int_ok_iff {len : Nat} {n : Int} :
    (∃ i, pyIdx len (.int n) = .ok i) ↔ (-(len : Int) ≤ n ∧ n < (len : Int)) := by
  constructor
  · rintro ⟨i, h⟩
    simp only [pyIdx, PyNum.asInt] at h
    split at h
    · rename_i hb
      omega
    · rename_i hb
      split at h
      · rename_i hb2
        omega
      · exact absurd h (by simp)
  · intro hb
    simp only [pyIdx, PyNum.asInt]
    rcases le_or_lt 0 n with hn | hn
    · refine ⟨n.toNat, ?_⟩
      rw [if_pos ⟨hn, hb.2⟩]
    · refine ⟨(n + len).toNat, ?_⟩
      rw [if_neg (by omega), if_pos ⟨hb.1, hn⟩]

theorem pyIdx_int_nonneg {len : Nat} {n : Int} (h0 : 0 ≤ n) (hl : n < (len : Int)) :
    pyIdx len (.int n) = .ok n.toNat := by
  simp only [pyIdx, PyNum.asInt]
  rw [if_pos ⟨h0, hl⟩]

theorem pyIdx_int_neg {len : Nat} {n : Int} (h0 : -(len : Int) ≤ n) (hl : n < 0) :
    pyIdx len (.int n) = .ok (n + len).toNat := by
  simp only [pyIdx, PyNum.asInt]
  rw [if_neg (by omega), if_pos ⟨h0, hl⟩]

theorem ram_read_ok {s : CPU} {mar : PyNum} {v : PyNum} (h : s.ram_read mar = .ok v) :
    ∃ i, pyIdx s.ram.length mar = .ok i ∧ v = s.ram.getD i (.int 0) := by
  unfold CPU.ram_read at h
  split at h
  case _ => exact absurd h (by simp)
  case _ i hi => exact ⟨i, hi, by cases h; rfl⟩

theorem ram_write_ok {s : CPU} {mdr mar : PyNum} {t : CPU}
    (h : s.ram_write mdr mar = .ok t) :
    ∃ i, pyIdx s.ram.length mar = .ok i ∧ t = { s with ram := s.ram.set i mdr } := by
  unfold CPU.ram_write at h
  split at h
  case _ => exact absurd h (by simp)
  case _ i hi => exact ⟨i, hi, by cases h; rfl⟩

theorem regGet_ok {s : CPU} {r : PyNum} {v : PyNum} (h : s.regGet r = .ok v) :
    ∃ i, pyIdx s.reg.length r = .ok i ∧ v = s.reg.getD i (.int 0) := by
  unfold CPU.regGet at h
  split at h
  case _ => exact absurd h (by simp)
  case _ i hi => exact ⟨i, hi, by cases h; rfl⟩

theorem regSet_ok {s : CPU} {r v : PyNum} {t : CPU} (h : s.regSet r v = .ok t) :
    ∃ i, pyIdx s.reg.length r = .ok i ∧ t = { s with reg := s.reg.set i v } := by
  unfold CPU.regSet at h
  split at h
  case _ => exact absurd h (by simp)
  case _ i hi => exact ⟨i, hi, by cases h; rfl⟩

theorem binAssign_ok {s : CPU} {ra rb : PyNum} {f : PyNum → PyNum → PyNum} {t : CPU}
    (h : s.binAssign ra rb f = .ok t) :
    ∃ a b, s.regGet ra = .ok a ∧ s.regGet rb = .ok b ∧ s.regSet ra (f a b) = .ok t := by
  unfold CPU.binAssign at h
  split at h
  case _ => exact absurd h (by simp)
  case _ a ha =>
    split at h
    case _ => exact absurd h (by simp)
    case _ b hb => exact ⟨a, b, ha, hb, h⟩

theorem binAssignE_ok {s : CPU} {ra rb : PyNum} {f : PyNum → PyNum → Except PyErr PyNum}
    {t : CPU} (h : s.binAssignE ra rb f = .ok t) :
    ∃ a b v, s.regGet ra = .ok a ∧ s.regGet rb = .ok b ∧ f a b = .ok v ∧
      s.regSet ra v = .ok t := by
  unfold CPU.binAssignE at h
  split at h
  case _ => exact absurd h (by simp)
  case _ a ha =>
    split at h
    case _ => exact absurd h (by simp)
    case _ b hb =>
      split at h
      case _ => exact absurd h (by simp)
      case _ v hv => exact ⟨a, b, v, ha, hb, hv, h⟩

theorem unAssign_ok {s : CPU} {ra : PyNum} {f : PyNum → PyNum} {t : CPU}
    (h : s.unAssign ra f = .ok t) :
    ∃ a, s.regGet ra = .ok a ∧ s.regSet ra (f a) = .ok t := by
  unfold CPU.unAssign at h
  split at h
  case _ => exact absurd h (by simp)
  case _ a ha => exact ⟨a, ha, h⟩

theorem op_call_ok {s : CPU} {a b : PyNum} {t : CPU} (h : s.op_call a b = .ok t) :
    ∃ i v, pyIdx s.ram.length (.int (s.sp - 1)) = .ok i ∧ s.regGet a = .ok v ∧
      t = { s with sp := s.sp - 1, ram := s.ram.set i (pyAdd s.pc (.int 2)), pc := v } := by
  unfold CPU.op_call at h
  dsimp only at h
  split at h
  case _ => exact absurd h (by simp)
  case _ s2 h2 =>
    split at h
    case _ => exact absurd h (by simp)
    case _ v hv =>
      obtain ⟨i, hi, ht⟩ := ram_write_ok h2
      subst ht
      cases h
      exact ⟨i, v, hi, hv, rfl⟩

theorem op_push_ok {s : CPU} {a b : PyNum} {t : CPU} (h : s.op_push a b = .ok t) :
    ∃ v i, s.regGet a = .ok v ∧ pyIdx s.ram.length (.int (s.sp - 1)) = .ok i ∧
      t = { s with sp := s.sp - 1, ram := s.ram.set i v } := by
  unfold CPU.op_push at h
  dsimp only at h
  split at h
  case _ => exact absurd h (by simp)
  case _ v hv =>
    obtain ⟨i, hi, ht⟩ := ram_write_ok h
    exact ⟨v, i, hv, hi, by rw [ht]⟩

theorem op_pop_ok {s : CPU} {a b : PyNum} {t : CPU} (h : s.op_pop a b = .ok t) :
    ∃ v j, s.ram_read (.int s.sp) = .ok v ∧ pyIdx s.reg.length a = .ok j ∧
      t = { s with reg := s.reg.set j v, sp := s.sp + 1 } := by
  unfold CPU.op_pop at h
  split at h
  case _ => exact absurd h (by simp)
  case _ v hv =>
    split at h
    case _ => exact absurd h (by simp)
    case _ s1 h1 =>
      obtain ⟨j, hj, ht⟩ := regSet_ok h1
      subst ht
      cases h
      exact ⟨v, j, hv, hj, rfl⟩

theorem op_ret_ok {s : CPU} {a b : PyNum} {t : CPU} (h : s.op_ret a b = .ok t) :
    ∃ v, s.ram_read (.int s.sp) = .ok v ∧ t = { s with pc := v, sp := s.sp + 1 } := by
  unfold CPU.op_ret at h
  split at h
  case _ => exact absurd h (by simp)
  case _ v hv => exact ⟨v, hv, by cases h; rfl⟩

theorem op_jmp_ok {s : CPU} {a b : PyNum} {t : CPU} (h : s.op_jmp a b = .ok t) :
    ∃ v, s.regGet a = .ok v ∧ t = { s with pc := v } := by
  unfold CPU.op_jmp at h
  split at h
  case _ => exact absurd h (by simp)
  case _ v hv => exact ⟨v, hv, by cases h; rfl⟩

theorem op_prn_ok {s : CPU} {a b : PyNum} {t : CPU} (h : s.op_prn a b = .ok t) :
    t = s := by
  unfold CPU.op_prn at h
  split at h
  case _ => exact absurd h (by simp)
  case _ v hv => cases h; rfl

theorem regSet_fl {s : CPU} {r v : PyNum} {t : CPU} (h : s.regSet r v = .ok t) :
    t.fl = s.fl := by
  obtain ⟨i, _, rfl⟩ := regSet_ok h
  rfl

theorem binAssign_fl {s : CPU} {ra rb : PyNum} {f : PyNum → PyNum → PyNum} {t : CPU}
    (h : s.binAssign ra rb f = .ok t) : t.fl = s.fl := by
  obtain ⟨a, b, _, _, hset⟩ := binAssign_ok h
  exact regSet_fl hset

theorem binAssignE_fl {s : CPU} {ra rb : PyNum} {f : PyNum → PyNum → Except PyErr PyNum}
    {t : CPU} (h : s.binAssignE ra rb f = .ok t) : t.fl = s.fl := by
  obtain ⟨a, b, v, _, _, _, hset⟩ := binAssignE_ok h
  exact regSet_fl hset

theorem unAssign_fl {s : CPU} {ra : PyNum} {f : PyNum → PyNum} {t : CPU}
    (h : s.unAssign ra f = .ok t) : t.fl = s.fl := by
  obtain ⟨a, _, hset⟩ := unAssign_ok h
  exact regSet_fl hset

theorem alu_int_fl {s : CPU} {i : Int} {ra rb : PyNum} {t : CPU} (hi : i ≠ CMP)
    (h : s.alu (.int i) ra rb = .ok t) : t.fl = s.fl := by
  unfold CPU.alu at h
  by_cases hADD : pyEq (.int i) (.int ADD) = true
  · rw [if_pos hADD] at h
    exact binAssign_fl h
  rw [if_neg hADD] at h
  by_cases hAND : pyEq (.int i) (.int AND) = true
  · rw [if_pos hAND] at h
    exact binAssignE_fl h
  rw [if_neg hAND] at h
  by_cases hCMP : pyEq (.int i) (.int CMP) = true
  · simp only [pyEq, beq_iff_eq] at hCMP
    exact absurd hCMP hi
  rw [if_neg hCMP] at h
  by_cases hDEC : pyEq (.int i) (.int DEC) = true
  · rw [if_pos hDEC] at h
    exact unAssign_fl h
  rw [if_neg hDEC] at h
  by_cases hDIV : pyEq (.int i) (.int DIV) = true
  · rw [if_pos hDIV] at h
    split at h
    · exact absurd h (by simp)
    · split at h
      · exact absurd h (by simp)
      · split at h
        · exact absurd h (by simp)
        · split at h
          · exact absurd h (by simp)
          · exact regSet_fl h
  rw [if_neg hDIV] at h
  by_cases hINC : pyEq (.int i) (.int INC) = true
  · rw [if_pos hINC] at h
    exact unAssign_fl h
  rw [if_neg hINC] at h
  by_cases hMOD : pyEq (.int i) (.int MOD) = true
  · rw [if_pos hMOD] at h
    split at h
    · exact absurd h (by simp)
    · split at h
      · exact absurd h (by simp)
      · split at h
        · exact absurd h (by simp)
        · split at h
          · exact absurd h (by simp)
          · exact regSet_fl h
  rw [if_neg hMOD] at h
  by_cases hMUL : pyEq (.int i) (.int MUL) = true
  · rw [if_pos hMUL] at h
    exact binAssign_fl h
  rw [if_neg hMUL] at h
  by_cases hNOT : pyEq (.int i) (.int NOT) = true
  · rw [if_pos hNOT] at h
    split at h
    · exact absurd h (by simp)
    · split at h
      · exact absurd h (by simp)
      · cases h
        rfl
  rw [if_neg hNOT] at h
  by_cases hOR : pyEq (.int i) (.int OR) = true
  · rw [if_pos hOR] at h
    exact binAssignE_fl h
  rw [if_neg hOR] at h
  by_cases hSHL : pyEq (.int i) (.int SHL) = true
  · rw [if_pos hSHL] at h
    exact binAssignE_fl h
  rw [if_neg hSHL] at h
  by_cases hSHR : pyEq (.int i) (.int SHR) = true
  · rw [if_pos hSHR] at h
    exact binAssignE_fl h
  rw [if_neg hSHR] at h
  by_cases hSUB : pyEq (.int i) (.int SUB) = true
  · rw [if_pos hSUB] at h
    exact binAssign_fl h
  rw [if_neg hSUB] at h
  by_cases hXOR : pyEq (.int i) (.int XOR) = true
  · rw [if_pos hXOR] at h
    exact binAssignE_fl h
  rw [if_neg hXOR] at h
  exact absurd h (by simp)

theorem dispatch_fl {s : CPU} {ir a b : PyNum} {t : CPU}
    (h : s.dispatch ir a b = .ok t) : t.fl = s.fl := by
  unfold CPU.dispatch at h
  by_cases h1 : pyEq ir (.int CALL) = true
  · rw [if_pos h1] at h
    obtain ⟨i, v, _, _, rfl⟩ := op_call_ok h
    rfl
  rw [if_neg h1] at h
  by_cases h2 : pyEq ir (.int HLT) = true
  · rw [if_pos h2] at h
    unfold CPU.op_hlt at h
    cases h
    rfl
  rw [if_neg h2] at h
  by_cases h3 : pyEq ir (.int JEQ) = true
  · rw [if_pos h3] at h
    unfold CPU.op_jeq at h
    split at h
    · obtain ⟨v, _, rfl⟩ := op_jmp_ok h
      rfl
    · cases h
      rfl
  rw [if_neg h3] at h
  by_cases h4 : pyEq ir (.int JMP) = true
  · rw [if_pos h4] at h
    obtain ⟨v, _, rfl⟩ := op_jmp_ok h
    rfl
  rw [if_neg h4] at h
  by_cases h5 : pyEq ir (.int JNE) = true
  · rw [if_pos h5] at h
    unfold CPU.op_jne at h
    split at h
    · obtain ⟨v, _, rfl⟩ := op_jmp_ok h
      rfl
    · cases h
      rfl
  rw [if_neg h5] at h
  by_cases h6 : pyEq ir (.int LDI) = true
  · rw [if_pos h6] at h
    unfold CPU.op_ldi at h
    exact regSet_fl h
  rw [if_neg h6] at h
  by_cases h7 : pyEq ir (.int POP) = true
  · rw [if_pos h7] at h
    obtain ⟨v, j, _, _, rfl⟩ := op_pop_ok h
    rfl
  rw [if_neg h7] at h
  by_cases h8 : pyEq ir (.int PRN) = true
  · rw [if_pos h8] at h
    rw [op_prn_ok h]
  rw [if_neg h8] at h
  by_cases h9 : pyEq ir (.int PUSH) = true
  · rw [if_pos h9] at h
    obtain ⟨v, i, _, _, rfl⟩ := op_push_ok h
    rfl
  rw [if_neg h9] at h
  by_cases h10 : pyEq ir (.int RET) = true
  · rw [if_pos h10] at h
    obtain ⟨v, _, rfl⟩ := op_ret_ok h
    rfl
  rw [if_neg h10] at h
  cases h
  rfl

theorem dispatch_miss {s : CPU} {i : Int} {a b : PyNum} (h : i ∉ btKeys) :
    s.dispatch (.int i) a b = .ok s := by
  have hne : ∀ c : Int, c ∈ btKeys → ¬ (pyEq (.int i) (.int c) = true) := by
    intro c hc he
    exact h ((by simpa [pyEq] using he : i = c) ▸ hc)
  unfold CPU.dispatch
  rw [if_neg (hne CALL (by simp [btKeys])), if_neg (hne HLT (by simp [btKeys])),
    if_neg (hne JEQ (by simp [btKeys])), if_neg (hne JMP (by simp [btKeys])),
    if_neg (hne JNE (by simp [btKeys])), if_neg (hne LDI (by simp [btKeys])),
    if_neg (hne POP (by simp [btKeys])), if_neg (hne PRN (by simp [btKeys])),
    if_neg (hne PUSH (by simp [btKeys])), if_neg (hne RET (by simp [btKeys]))]

theorem step_routing {s t : CPU} {i : Int} {a b : PyNum}
    (hir : s.ram_read s.pc = .ok (.int i))
    (ha : s.ram_read (pyAdd s.pc (.int 1)) = .ok a)
    (hb : s.ram_read (pyAdd s.pc (.int 2)) = .ok b)
    (h : s.step = .ok t) :
    ∃ u, (if (i.shiftRight 5).land 1 = 1 then s.alu (.int i) a b
          else s.dispatch (.int i) a b) = .ok u ∧
      t = (if (i.shiftRight 4).land 1 = 0 then
            { u with pc := pyAdd u.pc (.int (i.shiftRight 6 + 1)) } else u) := by
  unfold CPU.step at h
  rw [hir, ha, hb] at h
  dsimp only [PyNum.asInt] at h
  split at h
  case _ e heq => exact absurd h (by simp)
  case _ u heq =>
    refine ⟨u, heq, ?_⟩
    split at h
    case isTrue hc =>
      cases h
      rw [if_pos hc]
    case isFalse hc =>
      cases h
      rw [if_neg hc]

theorem step_ok_reads {s t : CPU} (h : s.step = .ok t) :
    ∃ ir a b, s.ram_read s.pc = .ok ir ∧ s.ram_read (pyAdd s.pc (.int 1)) = .ok a ∧
      s.ram_read (pyAdd s.pc (.int 2)) = .ok b := by
  unfold CPU.step at h
  split at h
  case _ => exact absurd h (by simp)
  case _ ir hir =>
    split at h
    case _ => exact absurd h (by simp)
    case _ a ha =>
      split at h
      case _ => exact absurd h (by simp)
      case _ b hb => exact ⟨ir, a, b, hir, ha, hb⟩

/-- C1: the claimed divisor-value test does not match the code. The DIV and
MOD branches compare the operand register index reg_b against 0, not the
value reg at reg_b: with the divisor register 0 holding the nonzero value 5,
DIV and MOD from source index 0 abort with the handled divide-by-zero exit
instead of storing a quotient; with a divisor register holding 0 at nonzero
index 2, the code raises an uncaught ZeroDivisionError instead of the
handled failure; and a DIV that does run stores a Python float, not the
integer quotient. -/
theorem C1_div_mod_check_index_not_value :
    aluEx.alu (.int DIV) (.int 1) (.int 0) = .error .divByZeroExit ∧
    aluEx.alu (.int MOD) (.int 1) (.int 0) = .error .divByZeroExit ∧
    aluEx.regGet (.int 0) = .ok (.int 5) ∧
    aluEx.alu (.int DIV) (.int 0) (.int 2) = .error .zeroDivisionError ∧
    aluEx.regGet (.int 2) = .ok (.int 0) ∧
    ∃ q : Rat, aluEx.alu (.int DIV) (.int 1) (.int 3) =
      .ok { aluEx with reg := aluEx.reg.set 1 (.flt q) } :=
  ⟨rfl, rfl, rfl, rfl, rfl, ⟨_, rfl⟩⟩

/-- C2: the claimed modulo-256 wraparound does not happen. ADD of 200 and
100 stores the unbounded Python int 300, which is not (200 plus 100) mod
256 and leaves the 8-bit range; SUB of 200 from 100 stores the negative
value -100; MUL of 200 and 100 stores 20000. -/
theorem C2_arithmetic_not_masked :
    (addEx.alu (.int ADD) (.int 0) (.int 1) =
        .ok { addEx with reg := addEx.reg.set 0 (.int 300) } ∧
      ¬ ((300 : Int) < 256) ∧ (300 : Int) ≠ (200 + 100) % 256) ∧
    (addEx.alu (.int SUB) (.int 1) (.int 0) =
        .ok { addEx with reg := addEx.reg.set 1 (.int (-100)) } ∧
      ((-100 : Int) < 0)) ∧
    (addEx.alu (.int MUL) (.int 0) (.int 1) =
        .ok { addEx with reg := addEx.reg.set 0 (.int 20000) } ∧
      ¬ ((20000 : Int) < 256)) :=
  ⟨⟨rfl, by decide, by decide⟩, ⟨rfl, by decide⟩, ⟨rfl, by decide⟩⟩

/-- C3: the NOT branch performs the not-equal comparison of the two register
values and discards the result, so the machine state is returned unchanged:
with register 2 holding 0, NOT leaves it at 0 while the claimed in-place
complement of 0 modulo 256 is 255. -/
theorem C3_not_is_noop :
    aluEx.alu (.int NOT) (.int 2) (.int 0) = .ok aluEx ∧
    aluEx.regGet (.int 2) = .ok (.int 0) ∧
    (PyNum.int 0 : PyNum) ≠ .int 255 :=
  ⟨rfl, rfl, by decide⟩

/-- C4: a successful CMP sets the flags byte to exactly one of 1, 4 and 2,
the equal, less and greater values, according to the numeric comparison of
the two register values; and any successful step whose fetched instruction
byte is not CMP leaves the flags byte unchanged. -/
theorem C4_cmp_flags :
    (∀ (s : CPU) (a b : PyNum) (t : CPU) (va vb : PyNum),
        s.regGet a = .ok va → s.regGet b = .ok vb →
        s.alu (.int CMP) a b = .ok t →
        ((t.fl = 1 ↔ pyEq va vb = true) ∧
         (t.fl = 4 ↔ (pyEq va vb = false ∧ pyLt va vb = true)) ∧
         (t.fl = 2 ↔ (pyEq va vb = false ∧ pyLt va vb = false)))) ∧
    (∀ (s t : CPU) (i : Int), s.ram_read s.pc = .ok (.int i) → i ≠ CMP →
        s.step = .ok t → t.fl = s.fl) := by
  constructor
  · intro s a b t va vb hva hvb h
    unfold CPU.alu at h
    rw [if_neg (by decide), if_neg (by decide), if_pos (by decide)] at h
    rw [hva] at h
    dsimp only at h
    rw [hvb] at h
    dsimp only at h
    split at h
    · rename_i hEq
      cases h
      exact ⟨by simp [hEq], by simp [hEq], by simp [hEq]⟩
    · rename_i hEq
      rw [Bool.not_eq_true] at hEq
      split at h
      · rename_i hLt
        cases h
        exact ⟨by simp [hEq], by simp [hEq, hLt], by simp [hEq, hLt]⟩
      · rename_i hLt
        rw [Bool.not_eq_true] at hLt
        cases h
        exact ⟨by simp [hEq], by simp [hEq, hLt], by simp [hEq, hLt]⟩
  · intro s t i hir hi h
    obtain ⟨ir, a, b, hir2, ha, hb⟩ := step_ok_reads h
    rw [hir] at hir2
    cases hir2
    obtain ⟨u, hroute, ht⟩ := step_routing hir ha hb h
    have hufl : u.fl = s.fl := by
      by_cases hbit : (i.shiftRight 5).land 1 = 1
      · rw [if_pos hbit] at hroute
        exact alu_int_fl hi hroute
      · rw [if_neg hbit] at hroute
        exact dispatch_fl hroute
    rw [ht]
    split
    · exact hufl
    · exact hufl

/-- C4 witness: CMP of 200 against 100 sets the greater flag 2, and an LDI
step, whose opcode 130 is not CMP, leaves the flags byte unchanged. -/
theorem C4_cmp_flags_witness :
    (∃ t, addEx.alu (.int CMP) (.int 0) (.int 1) = .ok t ∧ t.fl = 2) ∧
    (∃ t, ldiEx.step = .ok t ∧ t.fl = ldiEx.fl) := by
  constructor
  · have hrun : addEx.alu (.int CMP) (.int 0) (.int 1) = .ok { addEx with fl := 2 } := rfl
    have h := C4_cmp_flags.1 addEx (.int 0) (.int 1) { addEx with fl := 2 }
      (.int 200) (.int 100) rfl rfl hrun
    exact ⟨{ addEx with fl := 2 }, hrun, (h.2.2).mpr (by decide)⟩
  · have hrun : ldiEx.step = .ok ldiRes := rfl
    have h := C4_cmp_flags.2 ldiEx ldiRes 130 rfl (by decide) hrun
    exact ⟨ldiRes, hrun, h⟩

/-- C5 counterexample: reading the negative address -1, which lies outside
the interval from 0 to 256, does not fail: Python list indexing wraps it to
cell 255 and the read returns 0 on the freshly constructed machine. -/
theorem C5_negative_read_succeeds :
    initCPU.ram_read (.int (-1)) = .ok (.int 0) ∧
    ∀ e, initCPU.ram_read (.int (-1)) ≠ .error e := by
  refine ⟨rfl, ?_⟩
  intro e h
  rw [show initCPU.ram_read (.int (-1)) = .ok (.int 0) from rfl] at h
  exact Except.noConfusion h

/-- C5 amended: on a 256-cell memory, read and write of an integer address
succeed exactly when the address lies in the interval from -256 inclusive
to 256 exclusive; an address in the interval from -256 to -1 aliases the
cell at address plus 256; and a successful write changes nothing but the
single addressed cell. -/
theorem C5_bounds_amended (s : CPU) (n : Int) (v : PyNum) (h256 : s.ram.length = 256) :
    ((∃ u, s.ram_read (.int n) = .ok u) ↔ (-256 ≤ n ∧ n < 256)) ∧
    ((∃ t, s.ram_write v (.int n) = .ok t) ↔ (-256 ≤ n ∧ n < 256)) ∧
    ((-256 ≤ n ∧ n < 0) → s.ram_read (.int n) = s.ram_read (.int (n + 256))) ∧
    (∀ t, s.ram_write v (.int n) = .ok t →
      ∃ i, pyIdx s.ram.length (.int n) = .ok i ∧ t = { s with ram := s.ram.set i v }) := by
  refine ⟨?_, ?_, ?_, fun t ht => ram_write_ok ht⟩
  · constructor
    · rintro ⟨u, hu⟩
      obtain ⟨i, hi, _⟩ := ram_read_ok hu
      rw [h256] at hi
      have hb := pyIdx_int_ok_iff.mp ⟨i, hi⟩
      omega
    · intro hb
      obtain ⟨i, hi⟩ := (@pyIdx_int_ok_iff 256 n).mpr (by omega)
      unfold CPU.ram_read
      rw [h256, hi]
      exact ⟨_, rfl⟩
  · constructor
    · rintro ⟨t, ht⟩
      obtain ⟨i, hi, _⟩ := ram_write_ok ht
      rw [h256] at hi
      have hb := pyIdx_int_ok_iff.mp ⟨i, hi⟩
      omega
    · intro hb
      obtain ⟨i, hi⟩ := (@pyIdx_int_ok_iff 256 n).mpr (by omega)
      unfold CPU.ram_write
      rw [h256, hi]
      exact ⟨_, rfl⟩
  · rintro ⟨h1, h2⟩
    unfold CPU.ram_read
    rw [h256, pyIdx_int_neg (by omega) (by omega), pyIdx_int_nonneg (by omega) (by omega)]
    dsimp only
    norm_cast

/-- C5 witness: on the freshly constructed machine, whose memory has 256
cells, reading address 300 cannot succeed. -/
theorem C5_bounds_amended_witness :
    ¬ (∃ u, initCPU.ram_read (.int 300) = .ok u) := by
  intro hu
  have h := (C5_bounds_amended initCPU 300 (.int 1) rfl).1.mp hu
  omega

/-- C6 counterexample: the JLT opcode 88 is non-ALU and absent from the
branch table, yet a step on it changes nothing at all, the program counter
included, because its sets-PC bit is set: the claimed advance by operand
count plus 1 would move the program counter to 2. -/
theorem C6_spin_counterexample :
    spinEx.step = .ok spinEx ∧ spinEx.pc = .int 0 ∧
    pyAdd spinEx.pc (.int ((88 : Int).shiftRight 6 + 1)) ≠ spinEx.pc :=
  ⟨rfl, rfl, by decide⟩

/-- C6 amended: a step on a non-ALU opcode absent from the branch table
changes no state except the program counter; the program counter advances
by operand count plus 1 when bit 4 of the opcode is clear, and stays
unchanged, so the machine spins on the instruction, when bit 4 is set. -/
theorem C6_unknown_nonalu_amended (s t : CPU) (i : Int)
    (hir : s.ram_read s.pc = .ok (.int i))
    (hbit5 : (i.shiftRight 5).land 1 ≠ 1)
    (hkeys : i ∉ btKeys)
    (h : s.step = .ok t) :
    t.reg = s.reg ∧ t.ram = s.ram ∧ t.sp = s.sp ∧ t.fl = s.fl ∧ t.running = s.running ∧
      t.pc = (if (i.shiftRight 4).land 1 = 0 then pyAdd s.pc (.int (i.shiftRight 6 + 1))
              else s.pc) := by
  obtain ⟨ir, a, b, hir2, ha, hb⟩ := step_ok_reads h
  rw [hir] at hir2
  cases hir2
  obtain ⟨u, hroute, ht⟩ := step_routing hir ha hb h
  rw [if_neg hbit5, dispatch_miss hkeys] at hroute
  cases hroute
  subst ht
  by_cases hc : (i.shiftRight 4).land 1 = 0
  · rw [if_pos hc, if_pos hc]
    exact ⟨rfl, rfl, rfl, rfl, rfl, rfl⟩
  · rw [if_neg hc, if_neg hc]
    exact ⟨rfl, rfl, rfl, rfl, rfl, rfl⟩

/-- C6 witness: a step on the LD opcode 131, non-ALU, absent from the
branch table and with bit 4 clear, is a silent advance of the program
counter by 3. -/
theorem C6_unknown_nonalu_amended_witness :
    ldRes.reg = ldEx.reg ∧ ldRes.ram = ldEx.ram ∧ ldRes.sp = ldEx.sp ∧
    ldRes.fl = ldEx.fl ∧ ldRes.running = ldEx.running ∧
    ldRes.pc = (if ((131 : Int).shiftRight 4).land 1 = 0 then
                  pyAdd ldEx.pc (.int ((131 : Int).shiftRight 6 + 1)) else ldEx.pc) :=
  C6_unknown_nonalu_amended ldEx ldRes 131 rfl (by decide) (by decide) rfl

/-- C7: a completed step decodes the ALU flag as bit 5 of the fetched
instruction byte and routes to the ALU when it is 1 and to the branch table
otherwise, then advances the program counter by the operand count, the
instruction byte shifted right by 6, plus 1 exactly when bit 4 is clear. -/
theorem C7_decode_route_advance (s t : CPU) (i : Int) (a b : PyNum)
    (hir : s.ram_read s.pc = .ok (.int i))
    (ha : s.ram_read (pyAdd s.pc (.int 1)) = .ok a)
    (hb : s.ram_read (pyAdd s.pc (.int 2)) = .ok b)
    (h : s.step = .ok t) :
    ∃ u, (if (i.shiftRight 5).land 1 = 1 then s.alu (.int i) a b
          else s.dispatch (.int i) a b) = .ok u ∧
      t = (if (i.shiftRight 4).land 1 = 0 then
            { u with pc := pyAdd u.pc (.int (i.shiftRight 6 + 1)) } else u) :=
  step_routing hir ha hb h

/-- C7 witness: the LDI step decodes opcode 130 as non-ALU with two
operands and bit 4 clear, routes through the branch table, and advances the
program counter to 3. -/
theorem C7_decode_route_advance_witness :
    ∃ u, (if ((130 : Int).shiftRight 5).land 1 = 1 then
            ldiEx.alu (.int 130) (.int 1) (.int 42)
          else ldiEx.dispatch (.int 130) (.int 1) (.int 42)) = .ok u ∧
      ldiRes = (if ((130 : Int).shiftRight 4).land 1 = 0 then
            { u with pc := pyAdd u.pc (.int ((130 : Int).shiftRight 6 + 1)) } else u) :=
  C7_decode_route_advance ldiEx ldiRes 130 (.int 1) (.int 42) rfl rfl rfl rfl

/-- C8: a completed PUSH from a register followed by a completed POP into
the same register restores the whole register file and the stack pointer to
their values before the PUSH. -/
theorem C8_push_pop_roundtrip (s : CPU) (r b1 b2 : PyNum) (s1 s2 : CPU)
    (hpush : s.op_push r b1 = .ok s1) (hpop : s1.op_pop r b2 = .ok s2) :
    s2.reg = s.reg ∧ s2.sp = s.sp := by
  obtain ⟨v, i, hv, hi, rfl⟩ := op_push_ok hpush
  obtain ⟨w, j, hw, hj, rfl⟩ := op_pop_ok hpop
  obtain ⟨k, hk, hwv⟩ := ram_read_ok hw
  dsimp only at hk hwv hj
  rw [List.length_set] at hk
  rw [hi] at hk
  cases hk
  rw [getD_set_self (pyIdx_ok_lt hi)] at hwv
  subst hwv
  obtain ⟨i2, hi2, hv2⟩ := regGet_ok hv
  rw [hi2] at hj
  cases hj
  subst hv2
  constructor
  · dsimp only
    exact set_getD_self (pyIdx_ok_lt hi2)
  · dsimp only
    omega

/-- C8 witness: pushing register 1, holding 10, and popping back into
register 1 from the full-size example restores the register file and the
stack pointer. -/
theorem C8_push_pop_roundtrip_witness :
    stackPopRes.reg = stackEx.reg ∧ stackPopRes.sp = stackEx.sp :=
  C8_push_pop_roundtrip stackEx (.int 1) (.int 0) (.int 0) stackPushRes stackPopRes rfl rfl

/-- C9: a completed CALL lowers the stack pointer by 1, stores the return
address, the program counter plus 2, in the cell it points to, and sets the
program counter to the named register value; any completed RET executed
with the stack pointer back on that cell while it still holds the return
address sets the program counter to the return address and restores the
stack pointer to its pre-CALL value. -/
theorem C9_call_ret_resume (s : CPU) (a b : PyNum) (s1 : CPU) (v : PyNum)
    (hv : s.regGet a = .ok v) (hcall : s.op_call a b = .ok s1) :
    (s1.sp = s.sp - 1 ∧ s1.pc = v ∧
      s1.ram_read (.int s1.sp) = .ok (pyAdd s.pc (.int 2))) ∧
    (∀ (t s2 : CPU) (x y : PyNum), t.sp = s.sp - 1 →
      t.ram_read (.int t.sp) = .ok (pyAdd s.pc (.int 2)) →
      t.op_ret x y = .ok s2 →
      s2.pc = pyAdd s.pc (.int 2) ∧ s2.sp = s.sp) := by
  obtain ⟨i, w, hi, hw, rfl⟩ := op_call_ok hcall
  constructor
  · refine ⟨rfl, ?_, ?_⟩
    · rw [hv] at hw
      cases hw
      rfl
    · unfold CPU.ram_read
      dsimp only
      rw [List.length_set, hi]
      dsimp only
      rw [getD_set_self (pyIdx_ok_lt hi)]
  · intro t s2 x y htsp htram hret
    obtain ⟨u, hu, rfl⟩ := op_ret_ok hret
    rw [htram] at hu
    cases hu
    refine ⟨rfl, ?_⟩
    dsimp only
    omega

/-- C9 witness: a CALL through register 1, holding 10, from the full-size
example stores the return address 2 at cell 243 and jumps to 10; the RET on
the resulting state returns to address 2 with the stack pointer back at
244. -/
theorem C9_call_ret_resume_witness :
    (callRes.sp = stackEx.sp - 1 ∧ callRes.pc = .int 10 ∧
      callRes.ram_read (.int callRes.sp) = .ok (pyAdd stackEx.pc (.int 2))) ∧
    (retRes.pc = pyAdd stackEx.pc (.int 2) ∧ retRes.sp = stackEx.sp) := by
  have h := C9_call_ret_resume stackEx (.int 1) (.int 0) callRes (.int 10) rfl rfl
  exact ⟨h.1, h.2 callRes retRes (.int 0) (.int 0) rfl rfl rfl⟩

/-- C10: the constructor sets the dedicated stack pointer field and register
7 to 244, and every completed sequence of PUSH, CALL and RET handlers, plus
POP handlers whose target does not resolve to register 7, mutates only the
dedicated field: the value stored in register 7 never changes. -/
theorem C10_reg7_static :
    initCPU.sp = 244 ∧ initCPU.reg.getD 7 (.int 0) = .int 244 ∧
    ∀ (l : List StackOp) (s t : CPU), s.reg.length = 8 →
      (∀ op ∈ l, op.avoidsR7 = true) → runStackOps l s = .ok t →
      t.reg.getD 7 (.int 0) = s.reg.getD 7 (.int 0) ∧ t.reg.length = 8 := by
  refine ⟨rfl, rfl, ?_⟩
  intro l
  induction l with
  | nil =>
    intro s t h8 hall h
    cases h
    exact ⟨rfl, h8⟩
  | cons o rest ih =>
    intro s t h8 hall h
    unfold runStackOps at h
    split at h
    case _ => exact absurd h (by simp)
    case _ s1 heq =>
      have hs1 : s1.reg.getD 7 (.int 0) = s.reg.getD 7 (.int 0) ∧ s1.reg.length = 8 := by
        cases o with
        | push a b =>
          simp only [execStackOp] at heq
          obtain ⟨v, i, _, _, rfl⟩ := op_push_ok heq
          exact ⟨rfl, h8⟩
        | pop a b =>
          simp only [execStackOp] at heq
          obtain ⟨v, j, _, hj, rfl⟩ := op_pop_ok heq
          have havoid := hall (.pop a b) (List.mem_cons_self _ _)
          rw [h8] at hj
          have hj7 : j ≠ 7 := by
            intro he
            subst he
            simp only [StackOp.avoidsR7, hj] at havoid
            exact Bool.noConfusion havoid
          refine ⟨?_, ?_⟩
          · dsimp only
            exact getD_set_ne hj7
          · dsimp only
            rw [List.length_set, h8]
        | call a b =>
          simp only [execStackOp] at heq
          obtain ⟨i, v, _, _, rfl⟩ := op_call_ok heq
          exact ⟨rfl, h8⟩
        | ret a b =>
          simp only [execStackOp] at heq
          obtain ⟨v, _, rfl⟩ := op_ret_ok heq
          exact ⟨rfl, h8⟩
      have hrest := ih s1 t hs1.2 (fun op hop => hall op (List.mem_cons_of_mem _ hop)) h
      exact ⟨hrest.1.trans hs1.1, hrest.2⟩

/-- C10 witness: pushing register 0 from the constructed machine leaves
register 7 at 244. -/
theorem C10_reg7_static_witness :
    ∃ t, runStackOps demoOps initCPU = .ok t ∧ t.reg.getD 7 (.int 0) = .int 244 := by
  have hrun : runStackOps demoOps initCPU = .ok demoRes := rfl
  have h := C10_reg7_static.2.2 demoOps initCPU demoRes rfl (by decide) hrun
  refine ⟨demoRes, hrun, ?_⟩
  rw [h.1]
  rfl

end LS8
